import Mathlib

/-!
Verification development for the Thornvale locomotion / camera core.

The definitions below are a shallow embedding of the JavaScript source:
  * `src/utils/math.js`        → `clamp`, `lerp`, `damp`
  * `src/core/PhysicsWorld.js` → `PhysicsWorld.step` (fixed-step scheduler)
  * `src/physics/CharacterMotor.js`
        → `CharacterMotor.update`, `jump`, `teleport`, `canJump`
        → `PlatformCarrier.update`, `getPlatformVelocity`, `_quatToYaw`
  * `src/controllers/CameraRig.js`
        → `CameraRig.update`, `_checkCollision`
        → `PlayerController.update`

Vectors are `three.js` `Vector3` values, embedded as triples of reals.
The physics engine (Rapier) is external: its capsule sweep solver is a
parameter `SweepSolver` (desired movement ↦ corrected movement × grounded
flag), its rigid-body transform reads are explicit arguments, and the
scene ray-cast used by the camera is a parameter `RayQuery`.
-/

/-- `three.js` `Vector3`, with real components. -/
structure Vec3 where
  x : ℝ
  y : ℝ
  z : ℝ

namespace Vec3

/-- `Vector3.add`. -/
def add (a b : Vec3) : Vec3 := ⟨a.x + b.x, a.y + b.y, a.z + b.z⟩

/-- `Vector3.sub`. -/
def sub (a b : Vec3) : Vec3 := ⟨a.x - b.x, a.y - b.y, a.z - b.z⟩

/-- `Vector3.multiplyScalar`. -/
def smul (a : Vec3) (s : ℝ) : Vec3 := ⟨a.x * s, a.y * s, a.z * s⟩

/-- `Vector3.lengthSq`: `x*x + y*y + z*z`. -/
def lengthSq (a : Vec3) : ℝ := a.x * a.x + a.y * a.y + a.z * a.z

/-- `Vector3.length`. -/
noncomputable def length (a : Vec3) : ℝ := Real.sqrt a.lengthSq

/-- `Vector3.normalize`: `divideScalar(length() || 1)` — a zero vector is
left unchanged. -/
noncomputable def normalize (a : Vec3) : Vec3 :=
  a.smul (1 / (if a.length = 0 then 1 else a.length))

/-- `Vector3.crossVectors a b`. -/
def cross (a b : Vec3) : Vec3 :=
  ⟨a.y * b.z - a.z * b.y, a.z * b.x - a.x * b.z, a.x * b.y - a.y * b.x⟩

/-- `Vector3.distanceTo`. -/
noncomputable def distanceTo (a b : Vec3) : ℝ := (a.sub b).length

/-- The zero vector (`new THREE.Vector3()`). -/
def zero : Vec3 := ⟨0, 0, 0⟩

end Vec3

/-- Quaternion as stored by Rapier / three.js (`x, y, z, w`). -/
structure Quat where
  x : ℝ
  y : ℝ
  z : ℝ
  w : ℝ

/-- `Math.atan2 y x`, embedded as the argument of the complex number
`x + y·i`; its range is `(-π, π]`. -/
noncomputable def atan2 (y x : ℝ) : ℝ := Complex.arg ⟨x, y⟩

/-- `clamp` from `src/utils/math.js`. -/
def clamp (value mn mx : ℝ) : ℝ := max mn (min mx value)

/-- `lerp` from `src/utils/math.js`. -/
def lerp (a b t : ℝ) : ℝ := a + (b - a) * t

/-- `damp` from `src/utils/math.js`: frame-rate independent exponential
decay `lerp(current, target, 1 - exp(-sharpness*dt))`. -/
noncomputable def damp (current target sharpness dt : ℝ) : ℝ :=
  lerp current target (1 - Real.exp (-sharpness * dt))

namespace PhysicsWorld

/-- `this.fixedDt = 1 / 60` (`src/core/PhysicsWorld.js`). -/
def fixedDt : ℚ := 1 / 60

/-- `this.maxSubSteps = 5`. -/
def maxSubSteps : ℕ := 5

/-- The `while (accumulator >= fixedDt && steps < maxSubSteps)` loop of
`PhysicsWorld.step`, with the remaining step budget as fuel (the budget
starts at `maxSubSteps` and each iteration consumes one).  Returns the
accumulator after the loop and the number of `world.step()` calls made. -/
def subStepLoop : ℚ → ℕ → ℚ × ℕ
  | acc, 0 => (acc, 0)
  | acc, n + 1 =>
    if fixedDt ≤ acc then
      let r := subStepLoop (acc - fixedDt) n
      (r.1, r.2 + 1)
    else (acc, 0)

/-- `PhysicsWorld.step(dt)`: returns the accumulator after the call and the
number of physics sub-steps performed.  `hasWorld` models the
`if (!this.world) return` guard. -/
def step (hasWorld : Bool) (accumulator dt : ℚ) : ℚ × ℕ :=
  if !hasWorld then (accumulator, 0)
  else
    let acc := accumulator + dt
    let r := subStepLoop acc maxSubSteps
    -- Prevent spiral of death
    (if r.1 > fixedDt * 2 then 0 else r.1, r.2)

end PhysicsWorld

theorem PhysicsWorld.fixedDt_pos : 0 < PhysicsWorld.fixedDt := by norm_num [PhysicsWorld.fixedDt]

/-- Closed form of the sub-step loop: starting from a nonnegative
accumulator it runs `min ⌊acc / fixedDt⌋ n` iterations. -/
theorem PhysicsWorld.subStepLoop_eq (n : ℕ) (acc : ℚ) (hacc : 0 ≤ acc) :
    PhysicsWorld.subStepLoop acc n =
      (acc - PhysicsWorld.fixedDt * min (⌊acc / PhysicsWorld.fixedDt⌋.toNat) n,
        min (⌊acc / PhysicsWorld.fixedDt⌋.toNat) n) := by
  induction n generalizing acc with
  | zero => simp [PhysicsWorld.subStepLoop]
  | succ n ih =>
    rw [PhysicsWorld.subStepLoop]
    by_cases h : PhysicsWorld.fixedDt ≤ acc
    · rw [if_pos h]
      have hd : (0 : ℚ) < PhysicsWorld.fixedDt := PhysicsWorld.fixedDt_pos
      have hsub : 0 ≤ acc - PhysicsWorld.fixedDt := by linarith
      have hfloor : ⌊(acc - PhysicsWorld.fixedDt) / PhysicsWorld.fixedDt⌋ =
          ⌊acc / PhysicsWorld.fixedDt⌋ - 1 := by
        rw [sub_div, div_self (ne_of_gt hd)]
        exact_mod_cast Int.floor_sub_int (acc / PhysicsWorld.fixedDt) 1
      have hone : (1 : ℚ) ≤ acc / PhysicsWorld.fixedDt := (le_div_iff₀ hd).mpr (by linarith)
      have hfl1 : 1 ≤ ⌊acc / PhysicsWorld.fixedDt⌋ := by
        exact_mod_cast Int.le_floor.mpr (by exact_mod_cast hone)
      have htn : (⌊(acc - PhysicsWorld.fixedDt) / PhysicsWorld.fixedDt⌋).toNat =
          (⌊acc / PhysicsWorld.fixedDt⌋).toNat - 1 := by
        rw [hfloor]
        omega
      have htn1 : 1 ≤ (⌊acc / PhysicsWorld.fixedDt⌋).toNat := by omega
      rw [ih _ hsub, htn]
      have hmin : min ((⌊acc / PhysicsWorld.fixedDt⌋).toNat - 1) n + 1 =
          min (⌊acc / PhysicsWorld.fixedDt⌋).toNat (n + 1) := by omega
      refine Prod.ext ?_ ?_
      · show acc - PhysicsWorld.fixedDt -
            PhysicsWorld.fixedDt * min ((⌊acc / PhysicsWorld.fixedDt⌋).toNat - 1) n = _
        rw [← hmin]
        push_cast
        ring
      · show min ((⌊acc / PhysicsWorld.fixedDt⌋).toNat - 1) n + 1 = _
        rw [hmin]
    · rw [if_neg h]
      push_neg at h
      have hfl : ⌊acc / PhysicsWorld.fixedDt⌋ = 0 := by
        rw [Int.floor_eq_zero_iff, Set.mem_Ico]
        exact ⟨div_nonneg hacc PhysicsWorld.fixedDt_pos.le,
          (div_lt_one PhysicsWorld.fixedDt_pos).mpr h⟩
      simp [hfl]

/-- C2: fixed-step scheduler.  With a world present, a call to
`PhysicsWorld.step dt` whose accumulator after adding `dt` is `a = acc + dt`
performs exactly `min ⌊a / fixedDt⌋ 5` physics sub-steps (for the
nonnegative accumulators the program can reach), and for every prior
accumulator value the accumulator is at most `2 * fixedDt` after the call
returns. -/
theorem physicsStep_substeps_and_bound (acc dt : ℚ) (hdt : 0 < dt) :
    ((0 ≤ acc → (PhysicsWorld.step true acc dt).2 =
        min (⌊(acc + dt) / PhysicsWorld.fixedDt⌋.toNat) 5) ∧
      (PhysicsWorld.step true acc dt).1 ≤ 2 * PhysicsWorld.fixedDt) := by
  constructor
  · intro hacc
    have ha : 0 ≤ acc + dt := by linarith
    simp only [PhysicsWorld.step, Bool.not_true, Bool.false_eq_true, if_false]
    rw [PhysicsWorld.subStepLoop_eq PhysicsWorld.maxSubSteps (acc + dt) ha]
    rfl
  · simp only [PhysicsWorld.step, Bool.not_true, Bool.false_eq_true, if_false]
    set r := PhysicsWorld.subStepLoop (acc + dt) PhysicsWorld.maxSubSteps with hr
    by_cases h : r.1 > PhysicsWorld.fixedDt * 2
    · rw [if_pos h]
      norm_num [PhysicsWorld.fixedDt]
    · rw [if_neg h]
      push_neg at h
      linarith

/-- Witness for `physicsStep_substeps_and_bound` at `acc = 1/30`,
`dt = 1/60`: three sub-steps run and the accumulator stays bounded. -/
theorem physicsStep_substeps_and_bound_witness :
    ((0 ≤ (1 / 30 : ℚ) → (PhysicsWorld.step true (1 / 30) (1 / 60)).2 =
        min (⌊((1 / 30 : ℚ) + 1 / 60) / PhysicsWorld.fixedDt⌋.toNat) 5) ∧
      (PhysicsWorld.step true (1 / 30) (1 / 60)).1 ≤ 2 * PhysicsWorld.fixedDt) :=
  physicsStep_substeps_and_bound (1 / 30) (1 / 60) (by norm_num)

/-- 2D input vector `{ x, z }` handed to `CharacterMotor.update`. -/
structure Input2 where
  x : ℝ
  z : ℝ

/-- The Rapier kinematic character controller's sweep solver, consumed as an
external capability: desired movement ↦ (`computedMovement()`,
`computedGrounded()`). -/
def SweepSolver : Type := Vec3 → Vec3 × Bool

/-- A solver for unobstructed movement over flat ground: the corrected
movement equals the desired movement and the controller reports grounded. -/
def groundSolver : SweepSolver := fun movement => (movement, true)

/-- A solver for free-air movement: the corrected movement equals the
desired movement and the controller reports airborne. -/
def airSolver : SweepSolver := fun movement => (movement, false)

/-- A solver over flat ground that blocks vertical motion: horizontal
movement passes through unchanged, vertical movement is cancelled, and the
controller reports grounded. -/
def flatGroundSolver : SweepSolver := fun movement => (⟨movement.x, 0, movement.z⟩, true)

namespace CharacterMotor

/-- `this.maxSpeed = 6.0` (`src/physics/CharacterMotor.js`). -/
def maxSpeed : ℝ := 6

/-- `this.acceleration = 40.0`. -/
def acceleration : ℝ := 40

/-- `this.friction = 15.0`. -/
def friction : ℝ := 15

/-- `this.airControl = 0.3`. -/
def airControl : ℝ := 0.3

/-- `this.coyoteTime = 0.1`. -/
def coyoteTime : ℝ := 0.1

end CharacterMotor

/-- State of a `CharacterMotor`.  The three `has*` flags model whether the
Rapier `controller` / `body` / `collider` references are non-null; the body
position is the kinematic rigid body's translation (the motor commands it
via `setNextKinematicTranslation`). -/
structure Motor where
  hasController : Bool
  hasBody : Bool
  hasCollider : Bool
  position : Vec3
  velocity : Vec3
  isGrounded : Bool
  groundedTimer : ℝ
  platformVelocity : Vec3

namespace CharacterMotor

/-- World-space desired direction: `forward * (-inputDir.z) + right * inputDir.x`
with `forward = (sin yaw, 0, cos yaw)` and `right = (cos yaw, 0, -sin yaw)`. -/
noncomputable def desiredDir (inputDir : Input2) (cameraYaw : ℝ) : Vec3 :=
  let forward : Vec3 := ⟨Real.sin cameraYaw, 0, Real.cos cameraYaw⟩
  let right : Vec3 := ⟨Real.cos cameraYaw, 0, -Real.sin cameraYaw⟩
  (forward.smul (-inputDir.z)).add (right.smul inputDir.x)

/-- The acceleration / friction block of `CharacterMotor.update`: the
horizontal components of the velocity after input handling (the `y`
component passes through untouched here). -/
noncomputable def horizontalStep (m : Motor) (dt : ℝ) (inputDir : Input2)
    (cameraYaw : ℝ) : Vec3 :=
  let dir := desiredDir inputDir cameraYaw
  if dir.lengthSq > 0.001 then
    let targetVel := dir.normalize.smul maxSpeed
    let accelRate := if m.isGrounded then acceleration else acceleration * airControl
    let accelVec := (targetVel.sub m.velocity).smul (accelRate * dt)
    ⟨m.velocity.x + accelVec.x, m.velocity.y, m.velocity.z + accelVec.z⟩
  else
    let frictionRate := if m.isGrounded then friction else friction * airControl
    let f := Real.exp (-frictionRate * dt)
    let vx := m.velocity.x * f
    let vz := m.velocity.z * f
    ⟨if |vx| < 0.01 then 0 else vx, m.velocity.y, if |vz| < 0.01 then 0 else vz⟩

/-- `CharacterMotor.update(dt, inputDir, cameraYaw)`, with the Rapier sweep
solver passed explicitly.  Mirrors the source block by block: early-out when
uninitialized, acceleration/friction, gravity or grounded bias, platform
velocity composition, collision-corrected movement, grounded/coyote update,
and the kinematic position command. -/
noncomputable def update (solver : SweepSolver) (m : Motor) (dt : ℝ)
    (inputDir : Input2) (cameraYaw : ℝ) : Motor :=
  if ¬(m.hasController ∧ m.hasBody ∧ m.hasCollider) then m
  else
    let velH := horizontalStep m dt inputDir cameraYaw
    -- Gravity, or a small downward force to maintain ground contact
    let vy := if ¬m.isGrounded then max (velH.y + -20 * dt) (-50) else -2
    let vel : Vec3 := ⟨velH.x, vy, velH.z⟩
    -- movement = velocity * dt + platformVelocity * dt
    let movement := (vel.smul dt).add (m.platformVelocity.smul dt)
    let res := solver movement
    let corrected := res.1
    let grounded := res.2
    let vy2 := if grounded ∧ vel.y < 0 then 0 else vel.y
    let timer := if grounded then coyoteTime else m.groundedTimer - dt
    { m with
      velocity := ⟨vel.x, vy2, vel.z⟩
      isGrounded := grounded
      groundedTimer := timer
      position := m.position.add corrected }

/-- `CharacterMotor.canJump()`: `groundedTimer > 0`. -/
def canJump (m : Motor) : Prop := m.groundedTimer > 0

open scoped Classical in
/-- `CharacterMotor.jump(strength, allowAir)`. -/
noncomputable def jump (m : Motor) (strength : ℝ) (allowAir : Bool) : Motor :=
  if canJump m ∨ allowAir then
    { m with
      velocity := ⟨m.velocity.x, strength, m.velocity.z⟩
      groundedTimer := 0
      isGrounded := false }
  else m

/-- `CharacterMotor.teleport(position)`: only guarded by the body's
existence. -/
def teleport (m : Motor) (position : Vec3) : Motor :=
  if m.hasBody then
    { m with position := position, velocity := ⟨0, 0, 0⟩ }
  else m

/-- `CharacterMotor.getPosition()`: the body translation, or the zero
vector when the body is missing. -/
def getPosition (m : Motor) : Vec3 :=
  if m.hasBody then m.position else Vec3.zero

end CharacterMotor

/-- A grounded, fully initialized motor standing still, with a full coyote
window (the state right after a grounded tick). -/
def motorGrounded : Motor :=
  ⟨true, true, true, Vec3.zero, Vec3.zero, true, 0.1, Vec3.zero⟩

/-- An initialized motor that is airborne with an expired coyote window and
some downward momentum. -/
def motorAirborne : Motor :=
  ⟨true, true, true, Vec3.zero, ⟨0, -3, 0⟩, false, 0, Vec3.zero⟩

/-- An uninitialized motor: `controller`, `body` and `collider` are all
null, as in a freshly constructed `CharacterMotor`. -/
def motorUninit : Motor :=
  ⟨false, false, false, Vec3.zero, Vec3.zero, false, 0, Vec3.zero⟩

/-- C10: when the body exists, `teleport(position)` commands the body to
exactly the given position and zeroes the velocity, leaving `isGrounded`,
`groundedTimer` and `platformVelocity` unchanged. -/
theorem teleport_effect (m : Motor) (p : Vec3) (hb : m.hasBody = true) :
    (CharacterMotor.teleport m p).position = p ∧
      (CharacterMotor.teleport m p).velocity = ⟨0, 0, 0⟩ ∧
      (CharacterMotor.teleport m p).isGrounded = m.isGrounded ∧
      (CharacterMotor.teleport m p).groundedTimer = m.groundedTimer ∧
      (CharacterMotor.teleport m p).platformVelocity = m.platformVelocity := by
  simp [CharacterMotor.teleport, hb]

/-- Witness for `teleport_effect`: teleporting the grounded motor to
`(1, 2, 3)`. -/
theorem teleport_effect_witness :
    (CharacterMotor.teleport motorGrounded ⟨1, 2, 3⟩).position = ⟨1, 2, 3⟩ ∧
      (CharacterMotor.teleport motorGrounded ⟨1, 2, 3⟩).velocity = ⟨0, 0, 0⟩ ∧
      (CharacterMotor.teleport motorGrounded ⟨1, 2, 3⟩).isGrounded = motorGrounded.isGrounded ∧
      (CharacterMotor.teleport motorGrounded ⟨1, 2, 3⟩).groundedTimer
        = motorGrounded.groundedTimer ∧
      (CharacterMotor.teleport motorGrounded ⟨1, 2, 3⟩).platformVelocity
        = motorGrounded.platformVelocity :=
  teleport_effect motorGrounded ⟨1, 2, 3⟩ rfl

/-- C4 counterexample: on an airborne motor whose coyote window has
expired, `jump(8, false)` is a no-op — the vertical velocity stays `-3`
instead of being set to the strength `8`, refuting the claim for every
`strength` and `allowAir`. -/
theorem jump_unguarded_fails :
    (CharacterMotor.jump motorAirborne 8 false).velocity.y = -3 ∧
      (CharacterMotor.jump motorAirborne 8 false).isGrounded = false ∧
      ((-3 : ℝ) ≠ 8) := by
  refine ⟨?_, ?_, by norm_num⟩ <;>
    simp [CharacterMotor.jump, CharacterMotor.canJump, motorAirborne]

/-- C4 amended: `jump(strength, allowAir)` sets the vertical velocity to
`strength`, zeroes the coyote timer and marks the character airborne
whenever `canJump()` holds or `allowAir` is true; otherwise it leaves the
motor unchanged. -/
theorem jump_guarded (m : Motor) (strength : ℝ) (allowAir : Bool) :
    ((CharacterMotor.canJump m ∨ allowAir = true) →
      (CharacterMotor.jump m strength allowAir).velocity
          = ⟨m.velocity.x, strength, m.velocity.z⟩ ∧
        (CharacterMotor.jump m strength allowAir).groundedTimer = 0 ∧
        (CharacterMotor.jump m strength allowAir).isGrounded = false) ∧
    (¬(CharacterMotor.canJump m ∨ allowAir = true) →
      CharacterMotor.jump m strength allowAir = m) := by
  constructor
  · intro h
    simp [CharacterMotor.jump, h]
  · intro h
    simp [CharacterMotor.jump, h]

/-- Witness for `jump_guarded`: jumping from the grounded motor with
strength `8`. -/
theorem jump_guarded_witness :
    (CharacterMotor.jump motorGrounded 8 false).velocity
        = ⟨motorGrounded.velocity.x, 8, motorGrounded.velocity.z⟩ ∧
      (CharacterMotor.jump motorGrounded 8 false).groundedTimer = 0 ∧
      (CharacterMotor.jump motorGrounded 8 false).isGrounded = false :=
  (jump_guarded motorGrounded 8 false).1
    (Or.inl (by norm_num [CharacterMotor.canJump, motorGrounded]))

/-- C8 counterexample: `jump` has no initialization guard.  On a motor
whose controller, body and collider are all missing, `jump(8, true)` still
mutates the state: the vertical velocity changes from `0` to `8`. -/
theorem uninit_jump_mutates :
    motorUninit.hasController = false ∧ motorUninit.hasBody = false ∧
      motorUninit.hasCollider = false ∧ motorUninit.velocity.y = 0 ∧
      (CharacterMotor.jump motorUninit 8 true).velocity.y = 8 ∧ ((0 : ℝ) ≠ 8) := by
  refine ⟨rfl, rfl, rfl, rfl, ?_, by norm_num⟩
  simp [CharacterMotor.jump, motorUninit]

/-- C8 amended: `update` is a no-op while the controller, body or collider
is missing, and `teleport` is a no-op while the body is missing (`jump`,
however, checks only `canJump() || allowAir`, not initialization). -/
theorem uninitialized_noop (solver : SweepSolver) (m : Motor) (dt : ℝ)
    (inputDir : Input2) (cameraYaw : ℝ) (p : Vec3) :
    (¬(m.hasController = true ∧ m.hasBody = true ∧ m.hasCollider = true) →
      CharacterMotor.update solver m dt inputDir cameraYaw = m) ∧
    (m.hasBody = false → CharacterMotor.teleport m p = m) := by
  constructor
  · intro h
    simp only [CharacterMotor.update]
    rw [if_pos]
    simpa using h
  · intro h
    simp [CharacterMotor.teleport, h]

/-- Witness for `uninitialized_noop`: the uninitialized motor is untouched
by `update` and `teleport`. -/
theorem uninitialized_noop_witness :
    CharacterMotor.update groundSolver motorUninit (1 / 60) ⟨1, 1⟩ 0 = motorUninit ∧
      CharacterMotor.teleport motorUninit ⟨1, 2, 3⟩ = motorUninit :=
  ⟨(uninitialized_noop groundSolver motorUninit (1 / 60) ⟨1, 1⟩ 0 ⟨1, 2, 3⟩).1
      (by simp [motorUninit]),
    (uninitialized_noop groundSolver motorUninit (1 / 60) ⟨1, 1⟩ 0 ⟨1, 2, 3⟩).2 rfl⟩

/-- The motor's Rapier references all exist (the negation of the
`update` early-out condition). -/
def Motor.initialized (m : Motor) : Prop :=
  m.hasController = true ∧ m.hasBody = true ∧ m.hasCollider = true

theorem CharacterMotor.update_preserves_refs (solver : SweepSolver) (m : Motor)
    (dt : ℝ) (inputDir : Input2) (cameraYaw : ℝ) :
    (CharacterMotor.update solver m dt inputDir cameraYaw).hasController = m.hasController ∧
      (CharacterMotor.update solver m dt inputDir cameraYaw).hasBody = m.hasBody ∧
      (CharacterMotor.update solver m dt inputDir cameraYaw).hasCollider = m.hasCollider := by
  simp only [CharacterMotor.update]
  split <;> exact ⟨rfl, rfl, rfl⟩

theorem CharacterMotor.update_air_timer (m : Motor) (dt : ℝ) (inputDir : Input2)
    (cameraYaw : ℝ) (h : m.initialized) :
    (CharacterMotor.update airSolver m dt inputDir cameraYaw).groundedTimer
        = m.groundedTimer - dt ∧
      (CharacterMotor.update airSolver m dt inputDir cameraYaw).isGrounded = false := by
  obtain ⟨h1, h2, h3⟩ := h
  simp [CharacterMotor.update, airSolver, h1, h2, h3]

theorem CharacterMotor.update_ground_timer (m : Motor) (dt : ℝ) (inputDir : Input2)
    (cameraYaw : ℝ) (h : m.initialized) :
    (CharacterMotor.update groundSolver m dt inputDir cameraYaw).groundedTimer
        = CharacterMotor.coyoteTime ∧
      (CharacterMotor.update groundSolver m dt inputDir cameraYaw).isGrounded = true := by
  obtain ⟨h1, h2, h3⟩ := h
  simp [CharacterMotor.update, groundSolver, h1, h2, h3]

/-- Iterate `CharacterMotor.update` with the air solver over a list of
per-tick `(dt, (inputDir, cameraYaw))` arguments: a stretch of ticks in
which the controller reports airborne and no jump intervenes. -/
noncomputable def airIter : List (ℝ × Input2 × ℝ) → Motor → Motor
  | [], m => m
  | t :: ts, m => airIter ts (CharacterMotor.update airSolver m t.1 t.2.1 t.2.2)

theorem airIter_refs (ts : List (ℝ × Input2 × ℝ)) (m : Motor) (h : m.initialized) :
    (airIter ts m).initialized := by
  induction ts generalizing m with
  | nil => exact h
  | cons t ts ih =>
    obtain ⟨h1, h2, h3⟩ := h
    obtain ⟨p1, p2, p3⟩ := CharacterMotor.update_preserves_refs airSolver m t.1 t.2.1 t.2.2
    exact ih _ ⟨p1.trans h1, p2.trans h2, p3.trans h3⟩

theorem airIter_timer (ts : List (ℝ × Input2 × ℝ)) (m : Motor) (h : m.initialized) :
    (airIter ts m).groundedTimer = m.groundedTimer - (ts.map Prod.fst).sum := by
  induction ts generalizing m with
  | nil => simp [airIter]
  | cons t ts ih =>
    obtain ⟨h1, h2, h3⟩ := h
    obtain ⟨p1, p2, p3⟩ := CharacterMotor.update_preserves_refs airSolver m t.1 t.2.1 t.2.2
    rw [airIter, ih _ ⟨p1.trans h1, p2.trans h2, p3.trans h3⟩,
      (CharacterMotor.update_air_timer m t.1 t.2.1 t.2.2 ⟨h1, h2, h3⟩).1]
    simp
    ring

/-- C7: coyote window.  After a tick that reports grounded, a run of
airborne ticks with no intervening jump leaves `canJump()` true exactly as
long as the accumulated airborne time stays below `coyoteTime = 0.1 s`, and
never afterwards; the timer is exactly `coyoteTime` minus the accumulated
airborne time. -/
theorem coyote_window (m : Motor) (dt0 : ℝ) (inputDir0 : Input2) (cameraYaw0 : ℝ)
    (ts : List (ℝ × Input2 × ℝ)) (h : m.initialized) :
    (airIter ts (CharacterMotor.update groundSolver m dt0 inputDir0 cameraYaw0)).groundedTimer
        = CharacterMotor.coyoteTime - (ts.map Prod.fst).sum ∧
      (CharacterMotor.canJump
          (airIter ts (CharacterMotor.update groundSolver m dt0 inputDir0 cameraYaw0)) ↔
        (ts.map Prod.fst).sum < CharacterMotor.coyoteTime) := by
  obtain ⟨h1, h2, h3⟩ := h
  obtain ⟨p1, p2, p3⟩ := CharacterMotor.update_preserves_refs groundSolver m dt0 inputDir0 cameraYaw0
  have hinit : (CharacterMotor.update groundSolver m dt0 inputDir0 cameraYaw0).initialized :=
    ⟨p1.trans h1, p2.trans h2, p3.trans h3⟩
  have ht := airIter_timer ts _ hinit
  rw [(CharacterMotor.update_ground_timer m dt0 inputDir0 cameraYaw0 ⟨h1, h2, h3⟩).1] at ht
  refine ⟨ht, ?_⟩
  rw [CharacterMotor.canJump, ht]
  constructor
  · intro hgt
    linarith
  · intro hlt
    linarith

/-- Witness for `coyote_window`: one grounded tick then airborne ticks of
`0.05 s` and `0.04 s`; with `0.09 s < 0.1 s` elapsed, `canJump()` is still
true. -/
theorem coyote_window_witness :
    ((airIter [(0.05, ⟨0, 0⟩, 0), (0.04, ⟨0, 0⟩, 0)]
          (CharacterMotor.update groundSolver motorGrounded (1 / 60) ⟨0, 0⟩ 0)).groundedTimer
        = CharacterMotor.coyoteTime
          - (([(0.05, ⟨0, 0⟩, 0), (0.04, ⟨0, 0⟩, 0)] :
              List (ℝ × Input2 × ℝ)).map Prod.fst).sum ∧
      (CharacterMotor.canJump
          (airIter [(0.05, ⟨0, 0⟩, 0), (0.04, ⟨0, 0⟩, 0)]
            (CharacterMotor.update groundSolver motorGrounded (1 / 60) ⟨0, 0⟩ 0)) ↔
        (([(0.05, ⟨0, 0⟩, 0), (0.04, ⟨0, 0⟩, 0)] :
            List (ℝ × Input2 × ℝ)).map Prod.fst).sum < CharacterMotor.coyoteTime)) :=
  coyote_window motorGrounded (1 / 60) ⟨0, 0⟩ 0 _ ⟨rfl, rfl, rfl⟩

/-- Horizontal velocity `(x, z)` of a motor, packaged as a complex number
so that the plane norm is available. -/
def hvel (m : Motor) : ℂ := ⟨m.velocity.x, m.velocity.z⟩

/-- Horizontal speed of a motor: the magnitude of `(velocity.x, velocity.z)`. -/
noncomputable def hspeed (m : Motor) : ℝ := Complex.abs (hvel m)

/-- One grounded tick with zero input: each horizontal component is scaled
by `exp(-friction * dt)` and then snapped to `0` when its absolute value
drops below `0.01` — the snap is per component, and the motor stays
grounded and initialized. -/
theorem CharacterMotor.coast_step (m : Motor) (dt cameraYaw : ℝ)
    (h1 : m.hasController = true) (h2 : m.hasBody = true) (h3 : m.hasCollider = true)
    (hg : m.isGrounded = true) :
    (CharacterMotor.update groundSolver m dt ⟨0, 0⟩ cameraYaw).velocity.x
        = (if |m.velocity.x * Real.exp (-CharacterMotor.friction * dt)| < 0.01 then 0
            else m.velocity.x * Real.exp (-CharacterMotor.friction * dt)) ∧
      (CharacterMotor.update groundSolver m dt ⟨0, 0⟩ cameraYaw).velocity.z
        = (if |m.velocity.z * Real.exp (-CharacterMotor.friction * dt)| < 0.01 then 0
            else m.velocity.z * Real.exp (-CharacterMotor.friction * dt)) ∧
      (CharacterMotor.update groundSolver m dt ⟨0, 0⟩ cameraYaw).isGrounded = true ∧
      (CharacterMotor.update groundSolver m dt ⟨0, 0⟩ cameraYaw).hasController = true ∧
      (CharacterMotor.update groundSolver m dt ⟨0, 0⟩ cameraYaw).hasBody = true ∧
      (CharacterMotor.update groundSolver m dt ⟨0, 0⟩ cameraYaw).hasCollider = true := by
  have hdir : (CharacterMotor.desiredDir ⟨0, 0⟩ cameraYaw).lengthSq = 0 := by
    simp [CharacterMotor.desiredDir, Vec3.smul, Vec3.add, Vec3.lengthSq]
  simp [CharacterMotor.update, CharacterMotor.horizontalStep, hdir, groundSolver,
    h1, h2, h3, hg]
  norm_num

/-- Iterate grounded zero-input ticks of a fixed length `dt` (camera yaw 0):
the friction-only coasting trajectory. -/
noncomputable def coastIter (dt : ℝ) : ℕ → Motor → Motor
  | 0, m => m
  | n + 1, m => coastIter dt n (CharacterMotor.update groundSolver m dt ⟨0, 0⟩ 0)

theorem coastIter_no_snap (dt : ℝ) (hdt : 0 ≤ dt) (n : ℕ) (m : Motor)
    (h1 : m.hasController = true) (h2 : m.hasBody = true) (h3 : m.hasCollider = true)
    (hg : m.isGrounded = true)
    (hx : 0.01 ≤ |m.velocity.x| * Real.exp (-CharacterMotor.friction * (n * dt)))
    (hz : 0.01 ≤ |m.velocity.z| * Real.exp (-CharacterMotor.friction * (n * dt))) :
    (coastIter dt n m).velocity.x
        = m.velocity.x * Real.exp (-CharacterMotor.friction * (n * dt)) ∧
      (coastIter dt n m).velocity.z
        = m.velocity.z * Real.exp (-CharacterMotor.friction * (n * dt)) := by
  induction n generalizing m with
  | zero =>
    simp [coastIter]
  | succ n ih =>
    have hfr : (0 : ℝ) < CharacterMotor.friction := by norm_num [CharacterMotor.friction]
    have hexp1 : Real.exp (-CharacterMotor.friction * ((n + 1 : ℕ) * dt))
        ≤ Real.exp (-CharacterMotor.friction * dt) := by
      apply Real.exp_le_exp.mpr
      push_cast
      have hn : (0 : ℝ) ≤ (n : ℝ) := Nat.cast_nonneg n
      nlinarith [mul_nonneg (mul_nonneg hfr.le hn) hdt]
    have hxf : 0.01 ≤ |m.velocity.x * Real.exp (-CharacterMotor.friction * dt)| := by
      rw [abs_mul, abs_of_pos (Real.exp_pos _)]
      calc (0.01 : ℝ) ≤ |m.velocity.x| * Real.exp (-CharacterMotor.friction * ((n + 1 : ℕ) * dt)) := hx
        _ ≤ |m.velocity.x| * Real.exp (-CharacterMotor.friction * dt) := by
            exact mul_le_mul_of_nonneg_left hexp1 (abs_nonneg _)
    have hzf : 0.01 ≤ |m.velocity.z * Real.exp (-CharacterMotor.friction * dt)| := by
      rw [abs_mul, abs_of_pos (Real.exp_pos _)]
      calc (0.01 : ℝ) ≤ |m.velocity.z| * Real.exp (-CharacterMotor.friction * ((n + 1 : ℕ) * dt)) := hz
        _ ≤ |m.velocity.z| * Real.exp (-CharacterMotor.friction * dt) := by
            exact mul_le_mul_of_nonneg_left hexp1 (abs_nonneg _)
    obtain ⟨sx, sz, sg, s1, s2, s3⟩ := CharacterMotor.coast_step m dt 0 h1 h2 h3 hg
    set m1 := CharacterMotor.update groundSolver m dt ⟨0, 0⟩ 0 with hm1
    have hvx1 : m1.velocity.x = m.velocity.x * Real.exp (-CharacterMotor.friction * dt) := by
      rw [sx, if_neg (not_lt.mpr hxf)]
    have hvz1 : m1.velocity.z = m.velocity.z * Real.exp (-CharacterMotor.friction * dt) := by
      rw [sz, if_neg (not_lt.mpr hzf)]
    have hcomb : Real.exp (-CharacterMotor.friction * dt)
        * Real.exp (-CharacterMotor.friction * (n * dt))
        = Real.exp (-CharacterMotor.friction * ((n + 1 : ℕ) * dt)) := by
      rw [← Real.exp_add]
      push_cast
      ring_nf
    have hx1 : 0.01 ≤ |m1.velocity.x| * Real.exp (-CharacterMotor.friction * (n * dt)) := by
      rw [hvx1, abs_mul, abs_of_pos (Real.exp_pos _), mul_assoc, hcomb]
      exact hx
    have hz1 : 0.01 ≤ |m1.velocity.z| * Real.exp (-CharacterMotor.friction * (n * dt)) := by
      rw [hvz1, abs_mul, abs_of_pos (Real.exp_pos _), mul_assoc, hcomb]
      exact hz
    obtain ⟨ihx, ihz⟩ := ih m1 s1 s2 s3 sg hx1 hz1
    rw [coastIter, ← hm1]
    constructor
    · rw [ihx, hvx1, mul_assoc, hcomb]
    · rw [ihz, hvz1, mul_assoc, hcomb]

theorem Complex.abs_mk_mul_right (a b e : ℝ) (he : 0 ≤ e) :
    Complex.abs ⟨a * e, b * e⟩ = Complex.abs ⟨a, b⟩ * e := by
  simp only [Complex.abs_apply, Complex.normSq_mk]
  have h1 : a * e * (a * e) + b * e * (b * e) = (a * a + b * b) * e ^ 2 := by ring
  rw [h1, Real.sqrt_mul (add_nonneg (mul_self_nonneg a) (mul_self_nonneg b)), Real.sqrt_sq he]

/-- An initialized grounded motor coasting with both horizontal components
well above the snap threshold. -/
def motorDecay : Motor :=
  ⟨true, true, true, Vec3.zero, ⟨1, 0, 1⟩, true, 0.1, Vec3.zero⟩

/-- An initialized grounded motor whose `z` component is already below the
snap threshold while its magnitude is far above it. -/
def motorCoast : Motor :=
  ⟨true, true, true, Vec3.zero, ⟨1, 0, 0.009⟩, true, 0.1, Vec3.zero⟩

/-- C5 amended: grounded zero-input friction.  Each tick multiplies each
horizontal velocity component by `exp(-friction * dt)` and snaps any
component whose absolute value falls below `0.01` to exactly zero.  While
both decayed components stay at or above the threshold, the horizontal
speed after `n` ticks equals `v0 * exp(-friction * (n*dt))`; once both
decayed components fall below the threshold, the horizontal velocity is
exactly zero. -/
theorem friction_decay_amended (m : Motor) (dt : ℝ)
    (h1 : m.hasController = true) (h2 : m.hasBody = true) (h3 : m.hasCollider = true)
    (hg : m.isGrounded = true) (hdt : 0 ≤ dt) :
    (∀ n : ℕ,
        0.01 ≤ |m.velocity.x| * Real.exp (-CharacterMotor.friction * (n * dt)) →
        0.01 ≤ |m.velocity.z| * Real.exp (-CharacterMotor.friction * (n * dt)) →
        hspeed (coastIter dt n m)
          = hspeed m * Real.exp (-CharacterMotor.friction * (n * dt))) ∧
      ((|m.velocity.x * Real.exp (-CharacterMotor.friction * dt)| < 0.01 ∧
          |m.velocity.z * Real.exp (-CharacterMotor.friction * dt)| < 0.01) →
        (CharacterMotor.update groundSolver m dt ⟨0, 0⟩ 0).velocity.x = 0 ∧
          (CharacterMotor.update groundSolver m dt ⟨0, 0⟩ 0).velocity.z = 0) := by
  constructor
  · intro n hx hz
    obtain ⟨cx, cz⟩ := coastIter_no_snap dt hdt n m h1 h2 h3 hg hx hz
    rw [hspeed, hspeed, hvel, hvel, cx, cz,
      Complex.abs_mk_mul_right _ _ _ (Real.exp_pos _).le]
  · rintro ⟨hx, hz⟩
    obtain ⟨sx, sz, -, -, -, -⟩ := CharacterMotor.coast_step m dt 0 h1 h2 h3 hg
    exact ⟨by rw [sx, if_pos hx], by rw [sz, if_pos hz]⟩

/-- Witness for `friction_decay_amended`: one `1 ms` tick from speed
`√2 ≈ 1.41` scales the horizontal speed by `exp(-0.015)`. -/
theorem friction_decay_amended_witness :
    hspeed (coastIter 0.001 1 motorDecay)
      = hspeed motorDecay * Real.exp (-CharacterMotor.friction * ((1 : ℕ) * 0.001)) := by
  have hexp : (0.985 : ℝ) ≤ Real.exp (-CharacterMotor.friction * ((1 : ℕ) * 0.001)) := by
    have h := Real.add_one_le_exp (-CharacterMotor.friction * ((1 : ℕ) * (0.001 : ℝ)))
    norm_num [CharacterMotor.friction] at h ⊢
    linarith
  refine (friction_decay_amended motorDecay 0.001 rfl rfl rfl rfl (by norm_num)).1 1 ?_ ?_ <;>
  · show (0.01 : ℝ) ≤ |(1 : ℝ)| * _
    rw [abs_one, one_mul]
    linarith

/-- C5 counterexample: the snap is per component, not on the magnitude.
From velocity `(1, 0, 0.009)` a single `1 ms` grounded tick zeroes the `z`
component while the magnitude is still far above the `0.01` threshold, so
the resulting speed differs from `v0 * exp(-friction * dt)`. -/
theorem friction_magnitude_claim_fails :
    0.01 < hspeed (CharacterMotor.update groundSolver motorCoast 0.001 ⟨0, 0⟩ 0) ∧
      hspeed (CharacterMotor.update groundSolver motorCoast 0.001 ⟨0, 0⟩ 0)
        ≠ hspeed motorCoast * Real.exp (-CharacterMotor.friction * 0.001) := by
  obtain ⟨sx, sz, -, -, -, -⟩ := CharacterMotor.coast_step motorCoast 0.001 0 rfl rfl rfl rfl
  have hvx : motorCoast.velocity.x = 1 := rfl
  have hvz : motorCoast.velocity.z = 0.009 := rfl
  rw [hvx] at sx
  rw [hvz] at sz
  have hf_pos : (0 : ℝ) < Real.exp (-CharacterMotor.friction * 0.001) := Real.exp_pos _
  have hf_lb : (0.985 : ℝ) ≤ Real.exp (-CharacterMotor.friction * 0.001) := by
    have h := Real.add_one_le_exp (-CharacterMotor.friction * (0.001 : ℝ))
    norm_num [CharacterMotor.friction] at h ⊢
    linarith
  have hf_ub : Real.exp (-CharacterMotor.friction * 0.001) ≤ 1 := by
    have h : Real.exp (-CharacterMotor.friction * 0.001) ≤ Real.exp 0 :=
      Real.exp_le_exp.mpr (by norm_num [CharacterMotor.friction])
    rwa [Real.exp_zero] at h
  have hx_eq : (CharacterMotor.update groundSolver motorCoast 0.001 ⟨0, 0⟩ 0).velocity.x
      = Real.exp (-CharacterMotor.friction * 0.001) := by
    rw [sx, if_neg, one_mul]
    rw [one_mul, abs_of_pos hf_pos]
    push_neg
    linarith
  have hz_eq : (CharacterMotor.update groundSolver motorCoast 0.001 ⟨0, 0⟩ 0).velocity.z = 0 := by
    rw [sz, if_pos]
    rw [abs_of_pos (by positivity)]
    nlinarith
  have hnew : hspeed (CharacterMotor.update groundSolver motorCoast 0.001 ⟨0, 0⟩ 0)
      = Real.exp (-CharacterMotor.friction * 0.001) := by
    rw [hspeed, hvel, hx_eq, hz_eq]
    simp only [Complex.abs_apply, Complex.normSq_mk]
    rw [mul_zero, add_zero, Real.sqrt_mul_self hf_pos.le]
  have hold : 1 < hspeed motorCoast := by
    have hs : hspeed motorCoast = Real.sqrt (1 * 1 + 0.009 * 0.009) := by
      rw [hspeed, hvel, hvx, hvz]
      simp [Complex.abs_apply, Complex.normSq_mk]
    rw [hs]
    have h1 : (1 : ℝ) = Real.sqrt 1 := Real.sqrt_one.symm
    rw [h1]
    exact Real.sqrt_lt_sqrt (by norm_num) (by norm_num)
  constructor
  · rw [hnew]
    linarith
  · rw [hnew]
    intro hEq
    nlinarith

theorem CharacterMotor.desiredDir_unit (yaw : ℝ) :
    CharacterMotor.desiredDir ⟨1, 0⟩ yaw = ⟨Real.cos yaw, 0, -Real.sin yaw⟩ := by
  simp [CharacterMotor.desiredDir, Vec3.smul, Vec3.add]

theorem CharacterMotor.lengthSq_dir_unit (yaw : ℝ) :
    (⟨Real.cos yaw, 0, -Real.sin yaw⟩ : Vec3).lengthSq = 1 := by
  have h := Real.sin_sq_add_cos_sq yaw
  rw [Vec3.lengthSq]
  ring_nf
  nlinarith

theorem Vec3.normalize_of_lengthSq_one (v : Vec3) (h : v.lengthSq = 1) :
    v.normalize = v := by
  have hl : v.length = 1 := by rw [Vec3.length, h, Real.sqrt_one]
  rw [Vec3.normalize, hl]
  cases v
  simp [Vec3.smul]

theorem CharacterMotor.horizontalStep_full_input (m : Motor) (dt yaw : ℝ)
    (hg : m.isGrounded = true) :
    CharacterMotor.horizontalStep m dt ⟨1, 0⟩ yaw =
      ⟨m.velocity.x + (Real.cos yaw * CharacterMotor.maxSpeed - m.velocity.x)
          * (CharacterMotor.acceleration * dt),
        m.velocity.y,
        m.velocity.z + (-Real.sin yaw * CharacterMotor.maxSpeed - m.velocity.z)
          * (CharacterMotor.acceleration * dt)⟩ := by
  rw [CharacterMotor.horizontalStep]
  rw [if_pos (by rw [CharacterMotor.desiredDir_unit, CharacterMotor.lengthSq_dir_unit]; norm_num)]
  rw [CharacterMotor.desiredDir_unit,
    Vec3.normalize_of_lengthSq_one _ (CharacterMotor.lengthSq_dir_unit yaw)]
  simp [Vec3.smul, Vec3.sub, hg]

/-- The target horizontal velocity under full right input
(`desiredDir * maxSpeed`), as a point of the horizontal plane. -/
noncomputable def steerTarget (yaw : ℝ) : ℂ :=
  ⟨Real.cos yaw * CharacterMotor.maxSpeed, -Real.sin yaw * CharacterMotor.maxSpeed⟩

theorem abs_steerTarget (yaw : ℝ) :
    Complex.abs (steerTarget yaw) = CharacterMotor.maxSpeed := by
  have h := Real.sin_sq_add_cos_sq yaw
  rw [steerTarget]
  simp only [Complex.abs_apply, Complex.normSq_mk]
  have h6 : Real.cos yaw * CharacterMotor.maxSpeed * (Real.cos yaw * CharacterMotor.maxSpeed)
      + -Real.sin yaw * CharacterMotor.maxSpeed * (-Real.sin yaw * CharacterMotor.maxSpeed)
      = (Real.sin yaw ^ 2 + Real.cos yaw ^ 2) * CharacterMotor.maxSpeed ^ 2 := by ring
  rw [h6, h, one_mul, Real.sqrt_sq (by norm_num [CharacterMotor.maxSpeed])]

/-- One grounded tick of full input: the horizontal velocity moves toward
`steerTarget` by the blend factor `acceleration * dt`, the motor stays
grounded (over `groundSolver`) and keeps its references. -/
theorem CharacterMotor.steer_step (m : Motor) (dt yaw : ℝ)
    (h1 : m.hasController = true) (h2 : m.hasBody = true) (h3 : m.hasCollider = true)
    (hg : m.isGrounded = true) :
    hvel (CharacterMotor.update groundSolver m dt ⟨1, 0⟩ yaw)
        = hvel m + ((CharacterMotor.acceleration * dt : ℝ) : ℂ)
            * (steerTarget yaw - hvel m) ∧
      (CharacterMotor.update groundSolver m dt ⟨1, 0⟩ yaw).isGrounded = true ∧
      (CharacterMotor.update groundSolver m dt ⟨1, 0⟩ yaw).hasController = true ∧
      (CharacterMotor.update groundSolver m dt ⟨1, 0⟩ yaw).hasBody = true ∧
      (CharacterMotor.update groundSolver m dt ⟨1, 0⟩ yaw).hasCollider = true := by
  have hh := CharacterMotor.horizontalStep_full_input m dt yaw hg
  refine ⟨?_, ?_, ?_, ?_, ?_⟩
  all_goals
    simp [CharacterMotor.update, hh, groundSolver, h1, h2, h3, hvel, steerTarget,
      Complex.ext_iff]
  all_goals
    first
    | exact ⟨trivial, trivial⟩
    | constructor <;> ring

/-- Iterate grounded full-input ticks of a fixed length `dt` and camera yaw
`yaw`. -/
noncomputable def steerIter (dt yaw : ℝ) : ℕ → Motor → Motor
  | 0, m => m
  | n + 1, m => steerIter dt yaw n (CharacterMotor.update groundSolver m dt ⟨1, 0⟩ yaw)

theorem steerIter_dist (dt yaw : ℝ) (n : ℕ) (m : Motor)
    (h1 : m.hasController = true) (h2 : m.hasBody = true) (h3 : m.hasCollider = true)
    (hg : m.isGrounded = true) :
    hvel (steerIter dt yaw n m) - steerTarget yaw
      = ((1 - CharacterMotor.acceleration * dt : ℝ) : ℂ) ^ n
          * (hvel m - steerTarget yaw) := by
  induction n generalizing m with
  | zero => simp [steerIter]
  | succ n ih =>
    obtain ⟨hs, sg, s1, s2, s3⟩ := CharacterMotor.steer_step m dt yaw h1 h2 h3 hg
    rw [steerIter, ih _ s1 s2 s3 sg, hs]
    push_cast
    ring

theorem steerIter_speed_le (dt yaw : ℝ) (hr0 : 0 ≤ CharacterMotor.acceleration * dt)
    (hr1 : CharacterMotor.acceleration * dt ≤ 1) (n : ℕ) (m : Motor)
    (h1 : m.hasController = true) (h2 : m.hasBody = true) (h3 : m.hasCollider = true)
    (hg : m.isGrounded = true) (hv : hspeed m ≤ CharacterMotor.maxSpeed) :
    hspeed (steerIter dt yaw n m) ≤ CharacterMotor.maxSpeed := by
  induction n generalizing m with
  | zero => exact hv
  | succ n ih =>
    obtain ⟨hs, sg, s1, s2, s3⟩ := CharacterMotor.steer_step m dt yaw h1 h2 h3 hg
    set r : ℝ := CharacterMotor.acceleration * dt with hrdef
    have hsplit : hvel (CharacterMotor.update groundSolver m dt ⟨1, 0⟩ yaw)
        = ((1 - r : ℝ) : ℂ) * hvel m + ((r : ℝ) : ℂ) * steerTarget yaw := by
      rw [hs]
      push_cast
      ring
    have hb : hspeed (CharacterMotor.update groundSolver m dt ⟨1, 0⟩ yaw)
        ≤ CharacterMotor.maxSpeed := by
      rw [hspeed, hsplit]
      calc Complex.abs (((1 - r : ℝ) : ℂ) * hvel m + ((r : ℝ) : ℂ) * steerTarget yaw)
          ≤ Complex.abs (((1 - r : ℝ) : ℂ) * hvel m)
              + Complex.abs (((r : ℝ) : ℂ) * steerTarget yaw) := Complex.abs.add_le _ _
        _ = (1 - r) * Complex.abs (hvel m) + r * Complex.abs (steerTarget yaw) := by
            rw [map_mul, map_mul, Complex.abs_ofReal, Complex.abs_ofReal,
              abs_of_nonneg (by linarith), abs_of_nonneg hr0]
        _ ≤ (1 - r) * CharacterMotor.maxSpeed + r * CharacterMotor.maxSpeed := by
            rw [abs_steerTarget]
            have := hspeed m
            exact add_le_add (mul_le_mul_of_nonneg_left hv (by linarith)) le_rfl
        _ = CharacterMotor.maxSpeed := by ring
    rw [steerIter]
    exact ih _ s1 s2 s3 sg hb

/-- C6 amended: under repeated grounded full-input ticks the horizontal
velocity converges geometrically to `desiredDir * maxSpeed` — the distance
to the target is scaled by `1 - acceleration*dt` each tick — the speed
never exceeds `maxSpeed` *provided* `acceleration * dt ≤ 1` (i.e.
`dt ≤ 0.025 s` when grounded), and the steady state is an exact fixed
point. -/
theorem accel_blend_amended (m : Motor) (dt yaw : ℝ)
    (h1 : m.hasController = true) (h2 : m.hasBody = true) (h3 : m.hasCollider = true)
    (hg : m.isGrounded = true) (hr0 : 0 ≤ CharacterMotor.acceleration * dt)
    (hr1 : CharacterMotor.acceleration * dt ≤ 1) :
    (∀ n : ℕ, Complex.abs (hvel (steerIter dt yaw n m) - steerTarget yaw)
        = (1 - CharacterMotor.acceleration * dt) ^ n
            * Complex.abs (hvel m - steerTarget yaw)) ∧
      (hspeed m ≤ CharacterMotor.maxSpeed →
        ∀ n : ℕ, hspeed (steerIter dt yaw n m) ≤ CharacterMotor.maxSpeed) ∧
      (hvel m = steerTarget yaw →
        ∀ n : ℕ, hvel (steerIter dt yaw n m) = steerTarget yaw) := by
  refine ⟨?_, ?_, ?_⟩
  · intro n
    rw [steerIter_dist dt yaw n m h1 h2 h3 hg, map_mul, map_pow, Complex.abs_ofReal,
      abs_of_nonneg (by linarith)]
  · intro hv n
    exact steerIter_speed_le dt yaw hr0 hr1 n m h1 h2 h3 hg hv
  · intro hfix n
    have hd := steerIter_dist dt yaw n m h1 h2 h3 hg
    rw [hfix, sub_self, mul_zero] at hd
    exact sub_eq_zero.mp hd

/-- Witness for `accel_blend_amended` at `dt = 0.01`, yaw `0`, one tick
from rest. -/
theorem accel_blend_amended_witness :
    Complex.abs (hvel (steerIter 0.01 0 1 motorGrounded) - steerTarget 0)
        = (1 - CharacterMotor.acceleration * 0.01) ^ 1
            * Complex.abs (hvel motorGrounded - steerTarget 0) ∧
      hspeed (steerIter 0.01 0 1 motorGrounded) ≤ CharacterMotor.maxSpeed := by
  obtain ⟨hA, hB, hC⟩ := accel_blend_amended motorGrounded 0.01 0 rfl rfl rfl rfl
    (by norm_num [CharacterMotor.acceleration])
    (by norm_num [CharacterMotor.acceleration])
  refine ⟨hA 1, hB ?_ 1⟩
  have h0 : hvel motorGrounded = 0 := rfl
  rw [hspeed, h0, map_zero]
  norm_num [CharacterMotor.maxSpeed]

/-- C6 counterexample: the blend is an explicit Euler step with no clamp.
One grounded tick with `dt = 0.1 s` (the main loop's delta cap) from rest
with full input drives the horizontal speed to `24 m/s`, four times
`maxSpeed = 6` — the speed does not stay below `maxSpeed` for arbitrary
timesteps. -/
theorem accel_overshoot :
    (CharacterMotor.update groundSolver motorGrounded 0.1 ⟨1, 0⟩ 0).velocity.x = 24 ∧
      hspeed (CharacterMotor.update groundSolver motorGrounded 0.1 ⟨1, 0⟩ 0) = 24 ∧
      CharacterMotor.maxSpeed < 24 := by
  obtain ⟨hs, -, -, -, -⟩ := CharacterMotor.steer_step motorGrounded 0.1 0 rfl rfl rfl rfl
  have h0 : hvel motorGrounded = 0 := rfl
  have htgt : steerTarget 0 = ((6 : ℝ) : ℂ) := by
    rw [steerTarget]
    simp [Complex.ext_iff, CharacterMotor.maxSpeed]
  have hv : hvel (CharacterMotor.update groundSolver motorGrounded 0.1 ⟨1, 0⟩ 0)
      = ((24 : ℝ) : ℂ) := by
    rw [hs, h0, htgt]
    norm_num [CharacterMotor.acceleration]
  refine ⟨?_, ?_, by norm_num [CharacterMotor.maxSpeed]⟩
  · have : (hvel (CharacterMotor.update groundSolver motorGrounded 0.1 ⟨1, 0⟩ 0)).re
        = (24 : ℝ) := by rw [hv]; simp
    exact this
  · rw [hspeed, hv, Complex.abs_ofReal]
    norm_num

/-- `PlatformCarrier._quatToYaw(q)`: yaw extraction
`atan2(2(w·y + x·z), 1 - 2(y² + x²))`. -/
noncomputable def PlatformCarrier.quatToYaw (q : Quat) : ℝ :=
  atan2 (2 * (q.w * q.y + q.x * q.z)) (1 - 2 * (q.y * q.y + q.x * q.x))

/-- The delta normalization of `PlatformCarrier.update`:
`while (deltaYaw > π) deltaYaw -= 2π; while (deltaYaw < -π) deltaYaw += 2π`.
Both yaws entering the subtraction are `atan2` values in `(-π, π]`, so the
delta lies in `(-2π, 2π)` and each `while` loop runs at most one
iteration; the embedding unrolls that bound. -/
noncomputable def wrapYawDelta (d : ℝ) : ℝ :=
  let d1 := if d > Real.pi then d - 2 * Real.pi else d
  if d1 < -Real.pi then d1 + 2 * Real.pi else d1

/-- Per-platform record tracked by `PlatformCarrier`: the `prevPos` /
`prevRot` snapshots and the derived velocities; `bodyPos` is the platform
rigid body's current translation as read from the body. -/
structure PlatformState where
  prevPos : Vec3
  prevRot : Quat
  linearVelocity : Vec3
  angularVelocityY : ℝ
  bodyPos : Vec3

/-- The per-platform body of the `for` loop in `PlatformCarrier.update(dt)`,
given the platform body's current pose `(translation, rotation)`:
`linearVelocity = (currPos - prevPos) / dt`, `angularVelocityY` is the
wrapped yaw delta over `dt`, and the current pose is snapshotted. -/
noncomputable def PlatformCarrier.updatePlatform (dt : ℝ) (pose : Vec3 × Quat)
    (p : PlatformState) : PlatformState :=
  let currPos := pose.1
  let currQuat := pose.2
  let linearVelocity := (currPos.sub p.prevPos).smul (1 / dt)
  let prevYaw := PlatformCarrier.quatToYaw p.prevRot
  let currYaw := PlatformCarrier.quatToYaw currQuat
  let deltaYaw := wrapYawDelta (currYaw - prevYaw)
  { prevPos := currPos
    prevRot := currQuat
    linearVelocity := linearVelocity
    angularVelocityY := deltaYaw / dt
    bodyPos := currPos }

/-- `PlatformCarrier` state: the handle-keyed map of tracked platforms. -/
structure Carrier where
  platforms : ℕ → Option PlatformState

/-- `PlatformCarrier.update(dt)`: recompute every tracked platform's
velocities from the current body poses and snapshot the new pose. -/
noncomputable def PlatformCarrier.update (dt : ℝ) (poses : ℕ → Vec3 × Quat)
    (c : Carrier) : Carrier :=
  ⟨fun h => (c.platforms h).map (PlatformCarrier.updatePlatform dt (poses h))⟩

/-- `PlatformCarrier.getPlatformVelocity(groundCollider, characterPos)`:
the rider velocity (and the record stored into `currentPlatform`).  A
`null` or untracked collider yields the zero vector; otherwise the linear
velocity plus, when `|angularVelocityY| > 0.001`, the tangential
contribution `(-dz, 0, dx) * angularVelocityY`. -/
noncomputable def PlatformCarrier.getPlatformVelocity (c : Carrier)
    (groundCollider : Option ℕ) (characterPos : Vec3) :
    Vec3 × Option PlatformState :=
  match groundCollider with
  | none => (Vec3.zero, none)
  | some handle =>
    match c.platforms handle with
    | none => (Vec3.zero, none)
    | some platform =>
      let v :=
        if |platform.angularVelocityY| > 0.001 then
          let platformPos := platform.bodyPos
          let toChar : Vec3 := ⟨characterPos.x - platformPos.x, 0,
            characterPos.z - platformPos.z⟩
          let tangent := (⟨-toChar.z, 0, toChar.x⟩ : Vec3).smul platform.angularVelocityY
          platform.linearVelocity.add tangent
        else platform.linearVelocity
      (v, some platform)

/-- The quaternion of a pure yaw rotation by `θ` about the Y axis. -/
noncomputable def yawQuat (θ : ℝ) : Quat :=
  ⟨0, Real.sin (θ / 2), 0, Real.cos (θ / 2)⟩

theorem PlatformCarrier.quatToYaw_yawQuat (θ : ℝ)
    (hθ : θ ∈ Set.Ioc (-Real.pi) Real.pi) :
    PlatformCarrier.quatToYaw (yawQuat θ) = θ := by
  have hsin : 2 * (Real.cos (θ / 2) * Real.sin (θ / 2) + 0 * 0) = Real.sin θ := by
    have h := Real.sin_two_mul (θ / 2)
    rw [show 2 * (θ / 2) = θ by ring] at h
    rw [h]
    ring
  have hcos : 1 - 2 * (Real.sin (θ / 2) * Real.sin (θ / 2) + 0 * 0) = Real.cos θ := by
    have h := Real.cos_two_mul (θ / 2)
    rw [show 2 * (θ / 2) = θ by ring] at h
    have hpyth := Real.sin_sq_add_cos_sq (θ / 2)
    nlinarith [hpyth, h]
  rw [PlatformCarrier.quatToYaw, yawQuat]
  show atan2 (2 * (Real.cos (θ / 2) * Real.sin (θ / 2) + 0 * 0))
    (1 - 2 * (Real.sin (θ / 2) * Real.sin (θ / 2) + 0 * 0)) = θ
  rw [hsin, hcos, atan2]
  have hmk : (⟨Real.cos θ, Real.sin θ⟩ : ℂ)
      = Complex.cos θ + Complex.sin θ * Complex.I := by
    rw [Complex.ext_iff]
    constructor <;> simp [Complex.cos_ofReal_re, Complex.sin_ofReal_re]
  rw [hmk]
  exact_mod_cast Complex.arg_cos_add_sin_mul_I hθ

theorem PlatformCarrier.quatToYaw_mem (q : Quat) :
    PlatformCarrier.quatToYaw q ∈ Set.Ioc (-Real.pi) Real.pi :=
  Complex.arg_mem_Ioc _

theorem wrapYawDelta_mem (d : ℝ) (h1 : -(2 * Real.pi) < d) (h2 : d < 2 * Real.pi) :
    wrapYawDelta d ∈ Set.Icc (-Real.pi) Real.pi := by
  have hpi := Real.pi_pos
  rw [wrapYawDelta, Set.mem_Icc]
  split_ifs with ha hb hc <;> constructor <;> linarith

theorem PlatformCarrier.updatePlatform_ang (dt : ℝ) (pose : Vec3 × Quat)
    (p : PlatformState) :
    (PlatformCarrier.updatePlatform dt pose p).angularVelocityY
      = wrapYawDelta (PlatformCarrier.quatToYaw pose.2
          - PlatformCarrier.quatToYaw p.prevRot) / dt := rfl

theorem wrapYawDelta_of_mid (d : ℝ) (h1 : -Real.pi ≤ d) (h2 : d ≤ Real.pi) :
    wrapYawDelta d = d := by
  have hpi := Real.pi_pos
  rw [wrapYawDelta]
  split_ifs <;> linarith

theorem wrapYawDelta_of_lt (d : ℝ) (h : d < -Real.pi) :
    wrapYawDelta d = d + 2 * Real.pi := by
  have hpi := Real.pi_pos
  rw [wrapYawDelta]
  split_ifs <;> linarith

/-- A tracked platform at the origin with the identity orientation (the
state `registerPlatform` stores for a platform at rest, after one
`update`). -/
def platformAtRest : PlatformState :=
  ⟨Vec3.zero, ⟨0, 0, 0, 1⟩, Vec3.zero, 0, Vec3.zero⟩

/-- A carrier tracking `platformAtRest` under handle `0`. -/
def carrierOne : Carrier :=
  ⟨fun h => if h = 0 then some platformAtRest else none⟩

/-- A tracked platform whose previous orientation is a yaw of `π - 0.01`. -/
noncomputable def platformNearHalfTurn : PlatformState :=
  ⟨Vec3.zero, yawQuat (Real.pi - 0.01), Vec3.zero, 0, Vec3.zero⟩

/-- A tracked platform whose previous orientation is a yaw of `π/2`. -/
noncomputable def platformQuarterTurn : PlatformState :=
  ⟨Vec3.zero, yawQuat (Real.pi / 2), Vec3.zero, 0, Vec3.zero⟩

/-- C9 counterexample: the source's wrap loops leave a delta of exactly
`-π` unchanged, so the wrapped delta lands in the closed interval
`[-π, π]`, not in `(-π, π]` as claimed: a platform rotating from yaw `π/2`
to `-π/2` over `dt = 1` yields `angularVelocityY = -π`, and `-π` is not in
`(-π, π]`. -/
theorem platform_wrap_boundary :
    (PlatformCarrier.updatePlatform 1 (Vec3.zero, yawQuat (-(Real.pi / 2)))
        platformQuarterTurn).angularVelocityY = -Real.pi ∧
      -Real.pi ∉ Set.Ioc (-Real.pi) Real.pi := by
  have hpi := Real.pi_pos
  have hprev : PlatformCarrier.quatToYaw platformQuarterTurn.prevRot = Real.pi / 2 :=
    PlatformCarrier.quatToYaw_yawQuat _ ⟨by linarith, by linarith⟩
  have hcurr : PlatformCarrier.quatToYaw (yawQuat (-(Real.pi / 2))) = -(Real.pi / 2) :=
    PlatformCarrier.quatToYaw_yawQuat _ ⟨by linarith, by linarith⟩
  constructor
  · rw [PlatformCarrier.updatePlatform_ang, hcurr, hprev, div_one,
      wrapYawDelta_of_mid _ (by linarith) (by linarith)]
    ring
  · rw [Set.mem_Ioc]
    push_neg
    intro hcontra
    linarith

/-- C9 amended: shortest-path angular unwrap.  In `PlatformCarrier.update`
with `dt > 0`, every tracked platform's yaw delta (current yaw minus
previous yaw, each extracted from the orientation quaternion via the
`atan2` formula) is wrapped into the closed interval `[-π, π]` (a delta of
exactly `-π` is kept at `-π`) before dividing by `dt`; in particular a
rotation from yaw `π - 0.01` to `-π + 0.01` over `dt = 1` yields
`angularVelocityY` exactly `0.02`, not `≈ -2π`. -/
theorem platform_angular_wrap_amended :
    (∀ (dt : ℝ) (poses : ℕ → Vec3 × Quat) (c : Carrier) (h : ℕ) (p : PlatformState),
        dt ≠ 0 → c.platforms h = some p →
        ∃ p', (PlatformCarrier.update dt poses c).platforms h = some p' ∧
          p'.angularVelocityY * dt ∈ Set.Icc (-Real.pi) Real.pi) ∧
      (PlatformCarrier.updatePlatform 1 (Vec3.zero, yawQuat (-Real.pi + 0.01))
          platformNearHalfTurn).angularVelocityY = 0.02 := by
  have hpi3 : (3 : ℝ) < Real.pi := Real.pi_gt_three
  constructor
  · intro dt poses c h p hdt hp
    refine ⟨PlatformCarrier.updatePlatform dt (poses h) p, ?_, ?_⟩
    · rw [PlatformCarrier.update]
      simp [hp]
    · rw [PlatformCarrier.updatePlatform_ang, div_mul_cancel₀ _ hdt]
      obtain ⟨ha1, ha2⟩ := PlatformCarrier.quatToYaw_mem (poses h).2
      obtain ⟨hb1, hb2⟩ := PlatformCarrier.quatToYaw_mem p.prevRot
      exact wrapYawDelta_mem _ (by linarith) (by linarith)
  · have hprev : PlatformCarrier.quatToYaw platformNearHalfTurn.prevRot
        = Real.pi - 0.01 :=
      PlatformCarrier.quatToYaw_yawQuat _ ⟨by linarith, by linarith⟩
    have hcurr : PlatformCarrier.quatToYaw (yawQuat (-Real.pi + 0.01))
        = -Real.pi + 0.01 :=
      PlatformCarrier.quatToYaw_yawQuat _ ⟨by linarith, by linarith⟩
    rw [PlatformCarrier.updatePlatform_ang, hcurr, hprev, div_one,
      wrapYawDelta_of_lt _ (by linarith)]
    ring_nf

/-- Witness for `platform_angular_wrap_amended`: the tracked platform of
`carrierOne` under a vanishing pose change, with `dt = 1`. -/
theorem platform_angular_wrap_amended_witness :
    ∃ p', (PlatformCarrier.update 1 (fun _ => (Vec3.zero, ⟨0, 0, 0, 1⟩))
        carrierOne).platforms 0 = some p' ∧
      p'.angularVelocityY * 1 ∈ Set.Icc (-Real.pi) Real.pi :=
  platform_angular_wrap_amended.1 1 (fun _ => (Vec3.zero, ⟨0, 0, 0, 1⟩)) carrierOne 0
    platformAtRest (by norm_num) (by simp [carrierOne])

/-- Per-controller jump state of `PlayerController`
(`src/controllers/CameraRig.js`). -/
structure PlayerCtrl where
  jumpCooldown : ℝ
  airJumpsRemaining : ℕ

namespace PlayerController

/-- `this.jumpStrength = 8.0`. -/
def jumpStrength : ℝ := 8

/-- `this.maxAirJumps = 1`. -/
def maxAirJumps : ℕ := 1

end PlayerController

theorem PlatformCarrier.getPlatformVelocity_none (c : Carrier) (pos : Vec3) :
    PlatformCarrier.getPlatformVelocity c none pos = (Vec3.zero, none) := rfl

open scoped Classical in
/-- The motor-facing portion of `PlayerController.update(dt)`: the
platform-velocity feed (the source passes `null` as the ground collider —
the `TODO` at the `getPlatformVelocity` call site — so the query always
runs with no standing collider), the input inversion
(`moveInput.x *= -1`), the motor update, the air-jump counter reset and
the jump handling with its `0.2 s` cooldown.  Camera-input consumption and
the visual-rig / camera-target updates touch neither the jump state nor
the motor and are not part of this embedding. -/
noncomputable def PlayerController.update (solver : SweepSolver) (dt : ℝ)
    (carrier : Carrier) (pc : PlayerCtrl) (m : Motor) (moveInput : Input2)
    (jumpKey : Bool) (cameraYaw : ℝ) : PlayerCtrl × Motor :=
  -- Platform velocity (the ground collider is unavailable: null is passed)
  let m1 :=
    if m.hasCollider then
      { m with platformVelocity :=
          (PlatformCarrier.getPlatformVelocity carrier none
            (CharacterMotor.getPosition m)).1 }
    else m
  -- Input → Motor
  let input : Input2 := ⟨moveInput.x * -1, moveInput.z⟩
  let m2 := CharacterMotor.update solver m1 dt input cameraYaw
  -- Air-jump counter reset whenever grounded
  let air0 := if m2.isGrounded then PlayerController.maxAirJumps else pc.airJumpsRemaining
  -- Jump (with cooldown)
  let jmp :=
    if jumpKey ∧ pc.jumpCooldown ≤ 0 then
      if CharacterMotor.canJump m2 then
        (CharacterMotor.jump m2 PlayerController.jumpStrength false, (0.2 : ℝ), air0)
      else if 0 < air0 then
        (CharacterMotor.jump m2 PlayerController.jumpStrength true, (0.2 : ℝ), air0 - 1)
      else (m2, pc.jumpCooldown, air0)
    else (m2, pc.jumpCooldown, air0)
  (⟨jmp.2.1 - dt, jmp.2.2⟩, jmp.1)

/-- A motor at rest whose `x` position and platform-velocity feed do not
move under `update`, for any solver that passes horizontal movement
through unchanged. -/
theorem CharacterMotor.update_rest_x (solver : SweepSolver)
    (hs : ∀ mv, (solver mv).1.x = mv.x) (m : Motor) (dt cameraYaw : ℝ)
    (inputDir : Input2) (h1 : m.hasController = true) (h2 : m.hasBody = true)
    (h3 : m.hasCollider = true) (hg : m.isGrounded = true)
    (hvx : m.velocity.x = 0) (hpx : m.platformVelocity.x = 0)
    (hin : (CharacterMotor.desiredDir inputDir cameraYaw).lengthSq ≤ 0.001) :
    (CharacterMotor.update solver m dt inputDir cameraYaw).position.x = m.position.x := by
  have hno : ¬((CharacterMotor.desiredDir inputDir cameraYaw).lengthSq > 0.001) :=
    not_lt.mpr hin
  simp [CharacterMotor.update, CharacterMotor.horizontalStep, hno, h1, h2, h3, hg,
    hvx, hpx, hs, Vec3.smul, Vec3.add]

/-- C1 (code bug): platform carry is severed.  With a platform registered
under handle `0` that moved by `(2*dt, 0, 0)` over the tick —
`PlatformCarrier.update` correctly derives `linearVelocity = (2, 0, 0)` —
the subsequent `PlayerController.update` queries `getPlatformVelocity`
with a `null` ground collider, so the motor's platform velocity is zeroed
and a character at rest with no input does not move in `x` at all: the
x-delta is `0`, not `≈ 2 * dt`. -/
theorem platform_carry_lost (dt : ℝ) (hdt : 0 < dt) (solver : SweepSolver)
    (hsolver : ∀ mv, (solver mv).1.x = mv.x) (p0 : Vec3) :
    (∃ p', (PlatformCarrier.update dt
            (fun _ => (⟨p0.x + 2 * dt, p0.y, p0.z⟩, ⟨0, 0, 0, 1⟩))
            ⟨fun h => if h = 0 then some ⟨p0, ⟨0, 0, 0, 1⟩, Vec3.zero, 0, p0⟩
              else none⟩).platforms 0
          = some p' ∧ p'.linearVelocity = ⟨2, 0, 0⟩) ∧
      (PlayerController.update solver dt
            (PlatformCarrier.update dt
              (fun _ => (⟨p0.x + 2 * dt, p0.y, p0.z⟩, ⟨0, 0, 0, 1⟩))
              ⟨fun h => if h = 0 then some ⟨p0, ⟨0, 0, 0, 1⟩, Vec3.zero, 0, p0⟩
                else none⟩)
            ⟨0, 1⟩ motorGrounded ⟨0, 0⟩ false 0).2.position.x
        = motorGrounded.position.x ∧
      2 * dt ≠ 0 := by
  have hdt0 : dt ≠ 0 := ne_of_gt hdt
  refine ⟨⟨PlatformCarrier.updatePlatform dt
      (⟨p0.x + 2 * dt, p0.y, p0.z⟩, ⟨0, 0, 0, 1⟩)
      ⟨p0, ⟨0, 0, 0, 1⟩, Vec3.zero, 0, p0⟩, ?_, ?_⟩, ?_, by positivity⟩
  · rw [PlatformCarrier.update]
    simp
  · rw [PlatformCarrier.updatePlatform]
    simp only [Vec3.sub, Vec3.smul]
    rw [Vec3.mk.injEq]
    refine ⟨?_, ?_, ?_⟩ <;> field_simp
  · have hin : (CharacterMotor.desiredDir ⟨(0 : ℝ) * -1, 0⟩ 0).lengthSq ≤ 0.001 := by
      simp [CharacterMotor.desiredDir, Vec3.smul, Vec3.add, Vec3.lengthSq]
      norm_num
    rw [PlayerController.update]
    simp only [motorGrounded, PlatformCarrier.getPlatformVelocity_none, Bool.false_eq_true,
      false_and, if_false, if_true]
    exact CharacterMotor.update_rest_x solver hsolver _ dt 0 _ rfl rfl rfl rfl rfl rfl hin

/-- Witness for `platform_carry_lost`: `dt = 1/60`, flat-ground solver,
platform starting at the origin. -/
theorem platform_carry_lost_witness :
    (∃ p', (PlatformCarrier.update (1 / 60)
            (fun _ => (⟨Vec3.zero.x + 2 * (1 / 60), Vec3.zero.y, Vec3.zero.z⟩, ⟨0, 0, 0, 1⟩))
            ⟨fun h => if h = 0 then some ⟨Vec3.zero, ⟨0, 0, 0, 1⟩, Vec3.zero, 0, Vec3.zero⟩
              else none⟩).platforms 0
          = some p' ∧ p'.linearVelocity = ⟨2, 0, 0⟩) ∧
      (PlayerController.update flatGroundSolver (1 / 60)
            (PlatformCarrier.update (1 / 60)
              (fun _ => (⟨Vec3.zero.x + 2 * (1 / 60), Vec3.zero.y, Vec3.zero.z⟩, ⟨0, 0, 0, 1⟩))
              ⟨fun h => if h = 0 then some ⟨Vec3.zero, ⟨0, 0, 0, 1⟩, Vec3.zero, 0, Vec3.zero⟩
                else none⟩)
            ⟨0, 1⟩ motorGrounded ⟨0, 0⟩ false 0).2.position.x
        = motorGrounded.position.x ∧
      2 * (1 / 60 : ℝ) ≠ 0 :=
  platform_carry_lost (1 / 60) (by norm_num) flatGroundSolver (fun _ => rfl) Vec3.zero

/-- The scene ray-cast consumed by `CameraRig._checkCollision` as an
external capability: (origin, unit direction, far) ↦ nearest intersection
distance within `far`, or `none` when nothing blocks the ray. -/
def RayQuery : Type := Vec3 → Vec3 → ℝ → Option ℝ

/-- `CameraRig` configuration and state (`src/controllers/CameraRig.js`). -/
structure CameraRig where
  target : Vec3
  yaw : ℝ
  pitch : ℝ
  distance : ℝ
  minDistance : ℝ
  maxDistance : ℝ
  pivotHeight : ℝ
  shoulderOffset : ℝ
  lookAtHeight : ℝ
  minPitch : ℝ
  maxPitch : ℝ
  positionSharpness : ℝ
  rotationSharpness : ℝ
  collisionEnabled : Bool
  collisionOffset : ℝ
  currentDistance : ℝ
  smoothedPosition : Vec3

namespace CameraRig

/-- The pivot point above the target. -/
def pivot (rig : CameraRig) : Vec3 :=
  ⟨rig.target.x, rig.target.y + rig.pivotHeight, rig.target.z⟩

/-- Camera direction from yaw/pitch, normalized as in the source. -/
noncomputable def forwardVec (rig : CameraRig) : Vec3 :=
  (⟨Real.sin rig.yaw * Real.cos rig.pitch, Real.sin rig.pitch,
    Real.cos rig.yaw * Real.cos rig.pitch⟩ : Vec3).normalize

/-- The right vector for the shoulder offset: `up × forward`, normalized. -/
noncomputable def rightVec (rig : CameraRig) : Vec3 :=
  (Vec3.cross ⟨0, 1, 0⟩ rig.forwardVec).normalize

/-- Desired camera position:
`pivot - forward * distance + right * shoulderOffset`. -/
noncomputable def desiredPos (rig : CameraRig) : Vec3 :=
  (rig.pivot.add (rig.forwardVec.smul (-rig.distance))).add
    (rig.rightVec.smul rig.shoulderOffset)

/-- `CameraRig._checkCollision(pivot, desiredPos, scene)`: cast a ray from
the pivot toward the desired position with `far` set to their distance; on
a hit return `max(minDistance, hitDistance - collisionOffset)`, otherwise
the configured distance. -/
noncomputable def checkCollision (rig : CameraRig) (query : RayQuery)
    (pivotPos desired : Vec3) : ℝ :=
  let direction := (desired.sub pivotPos).normalize
  let maxDistance := pivotPos.distanceTo desired
  match query pivotPos direction maxDistance with
  | some hit => max rig.minDistance (hit - rig.collisionOffset)
  | none => rig.distance

/-- `CameraRig.update(dt, scene)`: desired position, optional collision
shortening of the distance, and the exponential-decay smoothing of the
orbit distance and camera position (`scenePresent` models a non-null
`scene` argument). -/
noncomputable def update (rig : CameraRig) (query : RayQuery)
    (scenePresent : Bool) (dt : ℝ) : CameraRig :=
  let desiredDistance :=
    if rig.collisionEnabled ∧ scenePresent then
      rig.checkCollision query rig.pivot rig.desiredPos
    else rig.distance
  let currentDistance := damp rig.currentDistance desiredDistance rig.positionSharpness dt
  let targetPos := (rig.pivot.add (rig.forwardVec.smul (-currentDistance))).add
    (rig.rightVec.smul rig.shoulderOffset)
  { rig with
    currentDistance := currentDistance
    smoothedPosition :=
      ⟨damp rig.smoothedPosition.x targetPos.x rig.positionSharpness dt,
        damp rig.smoothedPosition.y targetPos.y rig.positionSharpness dt,
        damp rig.smoothedPosition.z targetPos.z rig.positionSharpness dt⟩ }

end CameraRig

theorem damp_sub_target (current target sharpness dt : ℝ) :
    damp current target sharpness dt - target
      = Real.exp (-sharpness * dt) * (current - target) := by
  rw [damp, lerp]
  ring

theorem damp_ge_of_ge (current target sharpness dt m : ℝ) (hc : m ≤ current)
    (ht : m ≤ target) (hs : 0 ≤ sharpness) (hdt : 0 ≤ dt) :
    m ≤ damp current target sharpness dt := by
  have he1 : Real.exp (-sharpness * dt) ≤ 1 := by
    rw [show (1 : ℝ) = Real.exp 0 from (Real.exp_zero).symm]
    exact Real.exp_le_exp.mpr (by nlinarith)
  have he0 : 0 < Real.exp (-sharpness * dt) := Real.exp_pos _
  rw [damp, lerp]
  nlinarith

/-- C3 amended: camera occlusion.  When the ray hits at distance `d`, the
smoothing target is `max(minDistance, d - collisionOffset)` — bounded
below by `minDistance` but *not* clamped above by the configured distance
— and `currentDistance` converges toward that target without going below
`minDistance`: each update scales the gap to the target by
`exp(-positionSharpness * dt)`. -/
theorem camera_collision_amended (rig : CameraRig) (query : RayQuery) (dt d : ℝ)
    (hq : query rig.pivot ((rig.desiredPos.sub rig.pivot).normalize)
        (rig.pivot.distanceTo rig.desiredPos) = some d)
    (hen : rig.collisionEnabled = true) (hdt : 0 ≤ dt)
    (hsh : 0 ≤ rig.positionSharpness)
    (hcur : rig.minDistance ≤ rig.currentDistance) :
    (CameraRig.update rig query true dt).currentDistance
        = damp rig.currentDistance (max rig.minDistance (d - rig.collisionOffset))
            rig.positionSharpness dt ∧
      rig.minDistance ≤ max rig.minDistance (d - rig.collisionOffset) ∧
      rig.minDistance ≤ (CameraRig.update rig query true dt).currentDistance ∧
      |(CameraRig.update rig query true dt).currentDistance
          - max rig.minDistance (d - rig.collisionOffset)|
        = Real.exp (-rig.positionSharpness * dt)
            * |rig.currentDistance - max rig.minDistance (d - rig.collisionOffset)| := by
  have hcheck : rig.checkCollision query rig.pivot rig.desiredPos
      = max rig.minDistance (d - rig.collisionOffset) := by
    rw [CameraRig.checkCollision]
    simp only [hq]
  have hcd : (CameraRig.update rig query true dt).currentDistance
      = damp rig.currentDistance (max rig.minDistance (d - rig.collisionOffset))
          rig.positionSharpness dt := by
    rw [CameraRig.update]
    simp only [hen, true_and, if_true, hcheck]
  refine ⟨hcd, le_max_left _ _, ?_, ?_⟩
  · rw [hcd]
    exact damp_ge_of_ge _ _ _ _ _ hcur (le_max_left _ _) hsh hdt
  · rw [hcd, damp_sub_target, abs_mul, abs_of_pos (Real.exp_pos _)]

/-- A camera rig with default tuning except for a wide shoulder offset of
`3`, aimed with zero yaw and pitch at the origin. -/
def camRigWide : CameraRig :=
  ⟨⟨0, 0, 0⟩, 0, 0, 5, 1, 15, 1.5, 3, 1.2, -0.5, 1.2, 12, 15, true, 0.2, 5, ⟨0, 0, 0⟩⟩

/-- A ray-cast oracle whose nearest hit is always at distance `5.6`. -/
def rayHit56 : RayQuery := fun _ _ _ => some 5.6

/-- Witness for `camera_collision_amended`: the wide rig against the
constant-hit oracle over one `1 s` tick. -/
theorem camera_collision_amended_witness :
    (CameraRig.update camRigWide rayHit56 true 1).currentDistance
        = damp camRigWide.currentDistance
            (max camRigWide.minDistance (5.6 - camRigWide.collisionOffset))
            camRigWide.positionSharpness 1 ∧
      camRigWide.minDistance ≤ max camRigWide.minDistance (5.6 - camRigWide.collisionOffset) ∧
      camRigWide.minDistance ≤ (CameraRig.update camRigWide rayHit56 true 1).currentDistance ∧
      |(CameraRig.update camRigWide rayHit56 true 1).currentDistance
          - max camRigWide.minDistance (5.6 - camRigWide.collisionOffset)|
        = Real.exp (-camRigWide.positionSharpness * 1)
            * |camRigWide.currentDistance
                - max camRigWide.minDistance (5.6 - camRigWide.collisionOffset)| :=
  camera_collision_amended camRigWide rayHit56 1 5.6 rfl rfl (by norm_num)
    (by norm_num [camRigWide]) (by norm_num [camRigWide])

/-- C3 counterexample: the safe distance has no upper clamp.  With the
shoulder offset at `3` the ray to the desired position is `√34 ≈ 5.83`
long, so a hit at `5.6` — before reaching the desired position — yields a
safe distance `max(1, 5.6 - 0.2) = 5.4`, strictly above the configured
distance `5`; after one update `currentDistance` itself exceeds the
configured distance. -/
theorem camera_safe_distance_above_max :
    CameraRig.checkCollision camRigWide rayHit56 camRigWide.pivot camRigWide.desiredPos
        = 5.4 ∧
      camRigWide.distance < 5.4 ∧
      5.6 < camRigWide.pivot.distanceTo camRigWide.desiredPos ∧
      camRigWide.distance < (CameraRig.update camRigWide rayHit56 true 1).currentDistance := by
  have hf : camRigWide.forwardVec = ⟨0, 0, 1⟩ := by
    have hv : (⟨Real.sin camRigWide.yaw * Real.cos camRigWide.pitch,
        Real.sin camRigWide.pitch,
        Real.cos camRigWide.yaw * Real.cos camRigWide.pitch⟩ : Vec3) = ⟨0, 0, 1⟩ := by
      show (⟨Real.sin 0 * Real.cos 0, Real.sin 0, Real.cos 0 * Real.cos 0⟩ : Vec3) = _
      simp
    rw [CameraRig.forwardVec, hv]
    exact Vec3.normalize_of_lengthSq_one _ (by norm_num [Vec3.lengthSq])
  have hr : camRigWide.rightVec = ⟨1, 0, 0⟩ := by
    rw [CameraRig.rightVec, hf]
    have hc : Vec3.cross ⟨0, 1, 0⟩ ⟨0, 0, 1⟩ = ⟨1, 0, 0⟩ := by
      rw [Vec3.cross]
      norm_num
    rw [hc]
    exact Vec3.normalize_of_lengthSq_one _ (by norm_num [Vec3.lengthSq])
  have hp : camRigWide.pivot = ⟨0, 1.5, 0⟩ := by
    rw [CameraRig.pivot]
    show (⟨0, (0 : ℝ) + 1.5, 0⟩ : Vec3) = _
    norm_num
  have hd : camRigWide.desiredPos = ⟨3, 1.5, -5⟩ := by
    rw [CameraRig.desiredPos, hp, hf, hr]
    show (⟨(0 : ℝ) + 0 * -(5 : ℝ) + 1 * (3 : ℝ),
        (1.5 : ℝ) + 0 * -(5 : ℝ) + 0 * (3 : ℝ),
        (0 : ℝ) + 1 * -(5 : ℝ) + 0 * (3 : ℝ)⟩ : Vec3) = _
    norm_num
  have hcheck : CameraRig.checkCollision camRigWide rayHit56 camRigWide.pivot
      camRigWide.desiredPos = 5.4 := by
    rw [CameraRig.checkCollision]
    show max camRigWide.minDistance (5.6 - camRigWide.collisionOffset) = 5.4
    show max (1 : ℝ) (5.6 - 0.2) = 5.4
    rw [max_eq_right (by norm_num)]
    norm_num
  refine ⟨hcheck, by norm_num [camRigWide], ?_, ?_⟩
  · rw [hp, hd, Vec3.distanceTo, Vec3.sub, Vec3.length, Vec3.lengthSq]
    have h34 : ((0 : ℝ) - 3) * (0 - 3) + (1.5 - 1.5) * (1.5 - 1.5) + (0 - -5) * (0 - -5)
        = 34 := by norm_num
    rw [h34]
    exact (Real.lt_sqrt (by norm_num)).mpr (by norm_num)
  · have hcd : (CameraRig.update camRigWide rayHit56 true 1).currentDistance
        = damp camRigWide.currentDistance 5.4 camRigWide.positionSharpness 1 := by
      rw [CameraRig.update]
      simp only [hcheck]
      rfl
    rw [hcd]
    show (5 : ℝ) < damp 5 5.4 12 1
    have hex : Real.exp (-12 * 1) < 1 := by
      have h := Real.exp_lt_exp.mpr (show (-12 : ℝ) * 1 < 0 by norm_num)
      rwa [Real.exp_zero] at h
    rw [damp, lerp]
    have h04 : (0 : ℝ) < (5.4 - 5) * (1 - Real.exp (-12 * 1)) :=
      mul_pos (by norm_num) (by linarith)
    linarith
